import Mathlib

/-!
# Formal model of the Trivia API backend (`flaskr/app.py`)

A shallow embedding of the request handlers of the trivia backend.

* Database tables become Lean lists of records (`Question`, `Category`);
  the storage order of the list is the table's storage order.
* `order_by('id')` becomes an insertion sort by `id` (`orderById`).
* Python list slicing (`lst[start:end]`, with negative-index conversion and
  clamping) becomes `pySlice`.
* SQL `ILIKE` pattern matching (wildcards `%` and `_`, case-insensitive)
  becomes `likeMatch`.
* `ORDER BY random() LIMIT 1` becomes indexing by `r % n` for an arbitrary
  seed `r : Nat`; a uniformly distributed `r` yields the uniform choice.
* The broad `except:` traps around database access become explicit `Bool`
  oracles (`queryOk`, `dbOk`, `insertOk`): `false` means the wrapped
  database operation raised.
* A handler's outcome is `Resp α`: `.ok` a JSON body (HTTP 200) or
  `.err code` for an `abort(code)`.
-/

set_option maxRecDepth 8000

namespace Trivia

/-- A row of the `questions` table (`models.py`, shape per the data model:
id, question text, answer text, category id, difficulty). -/
structure Question where
  id : Nat
  question : List Char
  answer : List Char
  category : Int
  difficulty : Int
deriving DecidableEq, Repr

/-- A row of the `categories` table. -/
structure Category where
  id : Nat
  type : List Char
deriving DecidableEq, Repr

/-- A formatted question record, as exposed in JSON responses. -/
structure FormattedQuestion where
  id : Nat
  question : List Char
  answer : List Char
  category : Int
  difficulty : Int
deriving DecidableEq, Repr

/-- Modelled from the spec: `Question.format()` from the repository's
`models.py` (absent from the sources); the spec states each question is
formatted as `{id, question, answer, category, difficulty}`. -/
def Question.format (q : Question) : FormattedQuestion :=
  ⟨q.id, q.question, q.answer, q.category, q.difficulty⟩

def QUESTIONS_PER_PAGE : Nat := 10

/-- Python slice-index normalisation for a list of length `n`:
negative indices are shifted by `n` and clamped at `0`;
non-negative indices are clamped at `n`. -/
def pyIdx (n : Nat) (i : Int) : Nat :=
  if i < 0 then (i + n).toNat else min i.toNat n

/-- Python list slicing `l[a:b]`. -/
def pySlice (l : List α) (a b : Int) : List α :=
  (l.drop (pyIdx l.length a)).take (pyIdx l.length b - pyIdx l.length a)

/-- `request.args.get('page', 1, type=int)`: `none` stands for a missing or
non-integer `page` query parameter, for which Flask returns the default 1. -/
def parsePage (arg : Option Int) : Int := arg.getD 1

/-- `paginated_questions` (app.py lines 36-44): format all questions, then
return the Python slice `[(page-1)*10 : (page-1)*10+10]`. -/
def paginated_questions (page : Int) (questions : List Question) : List FormattedQuestion :=
  let start := (page - 1) * (QUESTIONS_PER_PAGE : Int)
  let stop := start + (QUESTIONS_PER_PAGE : Int)
  pySlice (questions.map Question.format) start stop

/-- The slice of a list "at positions [a, b)", reading positions
mathematically (an element is kept iff its 0-based position lies in the
interval): this is the spec's wording of the pagination contract, written
independently of Python's negative-index slicing. -/
def specSlice : List α → Int → Int → List α
  | [], _, _ => []
  | x :: xs, a, b => (if a ≤ 0 ∧ 0 < b then [x] else []) ++ specSlice xs (a - 1) (b - 1)

theorem specSlice_of_nonpos_stop (l : List α) (a b : Int) (hb : b ≤ 0) :
    specSlice l a b = [] := by
  induction l generalizing a b with
  | nil => rfl
  | cons x xs ih =>
    have : ¬ (a ≤ 0 ∧ 0 < b) := by omega
    simp [specSlice, this, ih (a - 1) (b - 1) (by omega)]

theorem specSlice_of_nonpos_start (l : List α) (a b : Int) (ha : a ≤ 0) :
    specSlice l a b = l.take b.toNat := by
  induction l generalizing a b with
  | nil => simp [specSlice]
  | cons x xs ih =>
    by_cases hb : 0 < b
    · rw [specSlice, if_pos ⟨ha, hb⟩, List.singleton_append, ih (a - 1) (b - 1) (by omega)]
      have hbn : b.toNat = (b - 1).toNat + 1 := by omega
      rw [hbn, List.take_succ_cons]
    · have hbn : b.toNat = 0 := by omega
      rw [specSlice_of_nonpos_stop _ _ _ (by omega), hbn, List.take_zero]

theorem specSlice_of_nonneg (l : List α) (a b : Int) (ha : 0 ≤ a) :
    specSlice l a b = (l.drop a.toNat).take (b.toNat - a.toNat) := by
  induction l generalizing a b with
  | nil => simp [specSlice]
  | cons x xs ih =>
    by_cases ha0 : a = 0
    · subst ha0
      rw [specSlice_of_nonpos_start _ _ _ (by omega)]
      simp
    · have hpos : 0 < a := by omega
      have hcond : ¬ (a ≤ 0 ∧ 0 < b) := by omega
      rw [specSlice, if_neg hcond, List.nil_append, ih (a - 1) (b - 1) (by omega)]
      have han : a.toNat = (a - 1).toNat + 1 := by omega
      rw [han, List.drop_succ_cons]
      congr 1
      omega

theorem pySlice_eq_specSlice (l : List α) (a b : Int) (ha : 0 ≤ a) (hb : 0 ≤ b) :
    pySlice l a b = specSlice l a b := by
  rw [specSlice_of_nonneg l a b ha]
  unfold pySlice pyIdx
  have hna : ¬ a < 0 := by omega
  have hnb : ¬ b < 0 := by omega
  simp only [hna, hnb, if_false]
  by_cases hlen : a.toNat ≤ l.length
  · have hmina : min a.toNat l.length = a.toNat := by omega
    rw [hmina]
    by_cases hblen : b.toNat ≤ l.length
    · have hminb : min b.toNat l.length = b.toNat := by omega
      rw [hminb]
    · have hminb : min b.toNat l.length = l.length := by omega
      rw [hminb]
      have hlen2 : (l.drop a.toNat).length = l.length - a.toNat := by
        simp [List.length_drop]
      rw [List.take_of_length_le (by omega), List.take_of_length_le (by omega)]
  · have hmina : min a.toNat l.length = l.length := by omega
    have hd1 : l.drop (min a.toNat l.length) = [] := by
      rw [hmina]; exact List.drop_length l
    have hd2 : l.drop a.toNat = [] := List.drop_eq_nil_of_le (by omega)
    rw [hd1, hd2]
    simp

/-- Insert a question into a list sorted by ascending `id`. -/
def insertById (q : Question) : List Question → List Question
  | [] => [q]
  | p :: ps => if q.id ≤ p.id then q :: p :: ps else p :: insertById q ps

/-- `Question.query.order_by('id').all()`: the stored questions sorted by
ascending `id`. -/
def orderById : List Question → List Question
  | [] => []
  | q :: qs => insertById q (orderById qs)

theorem length_insertById (q : Question) (l : List Question) :
    (insertById q l).length = l.length + 1 := by
  induction l with
  | nil => rfl
  | cons p ps ih =>
    unfold insertById
    by_cases h : q.id ≤ p.id
    · simp [h]
    · simp [h, ih]

theorem length_orderById (l : List Question) : (orderById l).length = l.length := by
  induction l with
  | nil => rfl
  | cons q qs ih => simp [orderById, length_insertById, ih]

theorem mem_insertById {x q : Question} {l : List Question} :
    x ∈ insertById q l ↔ x = q ∨ x ∈ l := by
  induction l with
  | nil => simp [insertById]
  | cons p ps ih =>
    unfold insertById
    by_cases h : q.id ≤ p.id
    · simp [h]
    · simp [h, ih]
      tauto

theorem pairwise_insertById (q : Question) {l : List Question}
    (h : l.Pairwise (fun a b => a.id ≤ b.id)) :
    (insertById q l).Pairwise (fun a b => a.id ≤ b.id) := by
  induction l with
  | nil => simp [insertById]
  | cons p ps ih =>
    rw [List.pairwise_cons] at h
    obtain ⟨h1, h2⟩ := h
    unfold insertById
    by_cases hle : q.id ≤ p.id
    · rw [if_pos hle, List.pairwise_cons]
      refine ⟨?_, List.pairwise_cons.2 ⟨h1, h2⟩⟩
      intro x hx
      rcases List.mem_cons.1 hx with hx | hx
      · exact hx ▸ hle
      · exact hle.trans (h1 x hx)
    · rw [if_neg hle, List.pairwise_cons]
      refine ⟨?_, ih h2⟩
      intro x hx
      rcases mem_insertById.1 hx with hx | hx
      · subst hx; omega
      · exact h1 x hx

theorem sorted_orderById (l : List Question) :
    (orderById l).Pairwise (fun a b => a.id ≤ b.id) := by
  induction l with
  | nil => simp [orderById]
  | cons q qs ih => exact pairwise_insertById q ih

/-- A handler outcome: `.ok body` is an HTTP 200 JSON response, `.err code`
is an `abort(code)` handled by the corresponding error handler. -/
inductive Resp (α : Type) where
  | ok (body : α)
  | err (code : Nat)
deriving DecidableEq, Repr

/-- The HTTP status of a handler outcome. -/
def Resp.status {α : Type} : Resp α → Nat
  | .ok _ => 200
  | .err c => c

/-- The JSON body of a successful `GET /questions` response. -/
structure QuestionsResp where
  questions : List FormattedQuestion
  categories : List (List Char)
  total_questions : Nat
deriving DecidableEq, Repr

/-- `get_questions` (app.py lines 71-96): order all questions by id, paginate;
an exception in the query/pagination block (`queryOk = false`) aborts with
400; an empty page aborts with 404; otherwise respond with the page, the
category type names in storage order, and the total question count. -/
def get_questions (queryOk : Bool) (page : Option Int) (db : List Question)
    (cats : List Category) : Resp QuestionsResp :=
  if queryOk then
    let questions := orderById db
    let current := paginated_questions (parsePage page) questions
    if current.length = 0 then .err 404
    else .ok ⟨current, cats.map Category.type, questions.length⟩
  else .err 400

theorem pySlice_sublist (l : List α) (a b : Int) : List.Sublist (pySlice l a b) l :=
  (List.take_sublist _ _).trans (List.drop_sublist _ _)

theorem length_pySlice_le (l : List α) (a : Int) (k : Nat) :
    (pySlice l a (a + k)).length ≤ k := by
  unfold pySlice pyIdx
  rw [List.length_take, List.length_drop]
  split_ifs <;> omega

/-- Sample questions used as concrete witnesses. -/
def mkQ (n : Nat) : Question := ⟨n, ['q'], ['a'], 1, 1⟩

/-- A concrete store of twenty questions. -/
def db20 : List Question := (List.range 20).map mkQ

/-- C2 (amended): for every page number P with P ≥ 1 (default 1 when the
page query parameter is missing or non-integer), the pagination helper
returns exactly the slice of the formatted question list at positions
[(P-1)*10, (P-1)*10+10), which is empty when the page is past the end of
the list.  (For P ≤ 0 the claim fails: the helper then applies Python's
negative-index slicing, see the counterexample.) -/
theorem paginated_questions_eq_specSlice (page : Int) (db : List Question)
    (h1 : 1 ≤ page) :
    parsePage none = 1 ∧
    paginated_questions page db
      = specSlice (db.map Question.format) ((page - 1) * 10) ((page - 1) * 10 + 10) ∧
    ((db.map Question.format).length ≤ ((page - 1) * 10).toNat →
      paginated_questions page db = []) := by
  have hmain : paginated_questions page db
      = specSlice (db.map Question.format) ((page - 1) * 10) ((page - 1) * 10 + 10) := by
    unfold paginated_questions QUESTIONS_PER_PAGE
    exact pySlice_eq_specSlice _ _ _ (by omega) (by omega)
  refine ⟨rfl, hmain, ?_⟩
  intro hlen
  rw [hmain, specSlice_of_nonneg _ _ _ (by omega),
    List.drop_eq_nil_of_le (by omega), List.take_nil]

/-- C2 counterexample: with page = -1 and a 20-question store the helper
returns the first ten questions (Python slice `[-20:-10]`), although no
position of the list lies in [(-1-1)*10, (-1-1)*10+10) = [-20, -10), so the
slice the claim describes is empty. -/
theorem paginated_questions_negative_page_counterexample :
    paginated_questions (-1) db20 = (db20.map Question.format).take 10 ∧
    (db20.map Question.format).take 10 ≠ [] ∧
    specSlice (db20.map Question.format) ((-1 - 1) * 10) ((-1 - 1) * 10 + 10) = [] := by
  refine ⟨by decide, by decide, by decide⟩

theorem paginated_questions_eq_specSlice_witness :
    (1 : Int) ≤ 1 ∧
    (parsePage none = 1 ∧
     paginated_questions 1 db20
       = specSlice (db20.map Question.format) ((1 - 1) * 10) ((1 - 1) * 10 + 10) ∧
     ((db20.map Question.format).length ≤ (((1 : Int) - 1) * 10).toNat →
       paginated_questions 1 db20 = [])) :=
  ⟨by decide, paginated_questions_eq_specSlice 1 db20 (by decide)⟩

/-- C7: given that the question query executes, `GET /questions` aborts with
404 exactly when the requested page's slice of the question list is empty;
when the query raises, it aborts with 400. -/
theorem get_questions_error_codes (queryOk : Bool) (page : Option Int)
    (db : List Question) (cats : List Category) :
    (queryOk = true →
       (get_questions queryOk page db cats = .err 404 ↔
         paginated_questions (parsePage page) (orderById db) = [])) ∧
    (queryOk = false → get_questions queryOk page db cats = .err 400) := by
  constructor
  · intro h
    subst h
    unfold get_questions
    by_cases hc : paginated_questions (parsePage page) (orderById db) = []
    · simp [hc]
    · have hlen : (paginated_questions (parsePage page) (orderById db)).length ≠ 0 := by
        simpa [List.length_eq_zero] using hc
      simp [hlen, hc]
  · intro h
    subst h
    simp [get_questions]

theorem get_questions_error_codes_witness :
    get_questions false none ([] : List Question) ([] : List Category) = .err 400 :=
  (get_questions_error_codes false none [] []).2 rfl

/-- C10: every successful `GET /questions` response carries a page that is
ordered by ascending id and holds at most ten questions, a
`total_questions` equal to the unpaginated question count, and the
category type names in storage order. -/
theorem get_questions_success_shape (page : Option Int) (db : List Question)
    (cats : List Category) (resp : QuestionsResp)
    (h : get_questions true page db cats = .ok resp) :
    resp.questions.Pairwise (fun a b => a.id ≤ b.id) ∧
    resp.questions.length ≤ 10 ∧
    resp.total_questions = db.length ∧
    resp.categories = cats.map Category.type := by
  unfold get_questions at h
  rw [if_pos rfl] at h
  by_cases hc : (paginated_questions (parsePage page) (orderById db)).length = 0
  · rw [if_pos hc] at h
    exact absurd h (by simp)
  · rw [if_neg hc] at h
    have hr : resp = ⟨paginated_questions (parsePage page) (orderById db),
        cats.map Category.type, (orderById db).length⟩ := (Resp.ok.inj h).symm
    subst hr
    refine ⟨?_, ?_, ?_, rfl⟩
    · have hsorted : ((orderById db).map Question.format).Pairwise
          (fun a b => a.id ≤ b.id) := by
        rw [List.pairwise_map]
        exact sorted_orderById db
      exact hsorted.sublist (pySlice_sublist _ _ _)
    · exact length_pySlice_le ((orderById db).map Question.format) _ 10
    · exact length_orderById db

theorem get_questions_success_shape_witness :
    (get_questions true none [mkQ 1] [] = .ok ⟨[(mkQ 1).format], [], 1⟩) ∧
    ([(mkQ 1).format].Pairwise (fun a b => a.id ≤ b.id) ∧
     [(mkQ 1).format].length ≤ 10 ∧
     (QuestionsResp.mk [(mkQ 1).format] [] 1).total_questions = [mkQ 1].length ∧
     (QuestionsResp.mk [(mkQ 1).format] [] 1).categories
       = ([] : List Category).map Category.type) :=
  ⟨by decide, get_questions_success_shape none [mkQ 1] [] ⟨[(mkQ 1).format], [], 1⟩ (by decide)⟩

/-- `delete_question` (app.py lines 101-116): look up the question by id; a
missing row, like any exception in the block (`dbOk = false`), ends in
`abort(404)`; otherwise the row is removed permanently and
`{success: true}` is returned.  The second component is the question store
after the request. -/
def delete_question (dbOk : Bool) (question_id : Nat) (db : List Question) :
    Resp Bool × List Question :=
  if dbOk then
    match db.find? (fun q => q.id == question_id) with
    | none => (.err 404, db)
    | some _ => (.ok true, db.filter (fun q => q.id != question_id))
  else (.err 404, db)

/-- C8: `DELETE /questions/{id}` aborts with 404 when no question has the
requested id and when the lookup/delete raises; otherwise it deletes the
question, answers `{success: true}`, and a subsequent lookup of that id
finds no record. -/
theorem delete_question_spec (dbOk : Bool) (question_id : Nat)
    (db : List Question) (q : Question) :
    (dbOk = false → delete_question dbOk question_id db = (.err 404, db)) ∧
    (db.find? (fun p => p.id == question_id) = none →
      delete_question true question_id db = (.err 404, db)) ∧
    (db.find? (fun p => p.id == question_id) = some q →
      delete_question true question_id db
        = (.ok true, db.filter (fun p => p.id != question_id)) ∧
      (db.filter (fun p => p.id != question_id)).find? (fun p => p.id == question_id)
        = none) := by
  refine ⟨?_, ?_, ?_⟩
  · intro h
    subst h
    simp [delete_question]
  · intro h
    simp [delete_question, h]
  · intro h
    refine ⟨by simp [delete_question, h], ?_⟩
    rw [List.find?_eq_none]
    intro x hx
    rw [List.mem_filter] at hx
    obtain ⟨-, hne⟩ := hx
    simp only [bne_iff_ne, ne_eq] at hne
    simp [hne]

theorem delete_question_spec_witness :
    delete_question true 1 [mkQ 1] = (.ok true, [mkQ 1].filter (fun p => p.id != 1)) ∧
    ([mkQ 1].filter (fun p => p.id != 1)).find? (fun p => p.id == 1) = none :=
  (delete_question_spec true 1 [mkQ 1] (mkQ 1)).2.2 (by decide)

/-- The JSON body `POST /questions` receives: each field may be absent
(`body.get` returns `None`). -/
structure CreateBody where
  question : Option (List Char)
  answer : Option (List Char)
  category : Option Int
  difficulty : Option Int
deriving DecidableEq, Repr

/-- The JSON body of a successful `POST /questions` response. -/
structure CreateResp where
  question : List Char
  answer : List Char
  current_category : Int
  difficulty : Int
  questions : List FormattedQuestion
deriving DecidableEq, Repr

/-- `create_question` (app.py lines 122-149): `request.get_json()` and the
`body.get` calls run before the try block, so a missing or malformed body
(`body = none`) raises there and ends as an unhandled error (500), not
422.  Inside the try block, constructing and inserting the row and the
follow-up queries either all succeed (`insertOk = true` and every field
present) or raise, which `abort(422)`s.  On success the new row is
appended to the store and the response echoes the four fields and carries
the requested page of all questions post-insert. -/
def create_question (insertOk : Bool) (newId : Nat) (page : Option Int)
    (body : Option CreateBody) (db : List Question) : Resp CreateResp × List Question :=
  match body with
  | none => (.err 500, db)
  | some b =>
    match b.question, b.answer, b.category, b.difficulty, insertOk with
    | some qq, some aa, some cc, some dd, true =>
      (.ok ⟨qq, aa, cc, dd,
          paginated_questions (parsePage page) (orderById (db ++ [⟨newId, qq, aa, cc, dd⟩]))⟩,
       db ++ [⟨newId, qq, aa, cc, dd⟩])
    | _, _, _, _, _ => (.err 422, db)

/-- C3 (amended): exceptions inside the handler's protected block — failed
construction/insertion, including inserts of `None` fields passed through
from a present body — abort with 422; but a missing or malformed JSON body
raises before the protected block and yields an unhandled error (500 here;
400 for malformed JSON with a JSON content type), never 422; on success a
new row is inserted and the response echoes question, answer,
current_category, difficulty and contains the requested (default first)
page of all questions post-insert. -/
theorem create_question_spec (insertOk : Bool) (newId : Nat) (page : Option Int)
    (b : CreateBody) (qq aa : List Char) (cc dd : Int) (db : List Question) :
    (create_question insertOk newId page none db = (.err 500, db)) ∧
    (insertOk = false → create_question insertOk newId page (some b) db = (.err 422, db)) ∧
    (b.question = none → create_question insertOk newId page (some b) db = (.err 422, db)) ∧
    (b = ⟨some qq, some aa, some cc, some dd⟩ →
      create_question true newId page (some b) db
        = (.ok ⟨qq, aa, cc, dd,
            paginated_questions (parsePage page) (orderById (db ++ [⟨newId, qq, aa, cc, dd⟩]))⟩,
           db ++ [⟨newId, qq, aa, cc, dd⟩])) := by
  obtain ⟨bq, ba, bc, bd⟩ := b
  refine ⟨rfl, ?_, ?_, ?_⟩
  · intro h
    subst h
    cases bq <;> cases ba <;> cases bc <;> cases bd <;> rfl
  · intro h
    simp only [CreateBody.mk.injEq] at h ⊢
    cases h
    cases ba <;> cases bc <;> cases bd <;> cases insertOk <;> rfl
  · intro h
    simp only [CreateBody.mk.injEq] at h
    obtain ⟨h1, h2, h3, h4⟩ := h
    subst h1; subst h2; subst h3; subst h4
    rfl

theorem create_question_spec_witness :
    create_question true 7 none (some ⟨some ['x'], some ['y'], some 2, some 3⟩)
        ([] : List Question)
      = (.ok ⟨['x'], ['y'], 2, 3,
          paginated_questions (parsePage none) (orderById ([] ++ [⟨7, ['x'], ['y'], 2, 3⟩]))⟩,
         [] ++ [⟨7, ['x'], ['y'], 2, 3⟩]) :=
  (create_question_spec true 7 none ⟨some ['x'], some ['y'], some 2, some 3⟩
    ['x'] ['y'] 2 3 []).2.2.2 rfl

/-- C3 counterexample: with a missing JSON body the handler dies before the
try block (`body.get` on `None`), producing a 500 response, not the 422
the claim requires. -/
theorem create_question_missing_body_counterexample :
    create_question true 1 none none ([] : List Question)
      = (.err 500, ([] : List Question)) ∧
    (Resp.err 500 : Resp CreateResp).status ≠ 422 :=
  ⟨rfl, by decide⟩

/-- Case-insensitive comparison of a leading segment: `s` starts `t` when
the characters of `s` match the first characters of `t` after lowercasing
both sides. -/
def startsWithCI : List Char → List Char → Bool
  | [], _ => true
  | _ :: _, [] => false
  | a :: s, b :: t => (a.toLower == b.toLower) && startsWithCI s t

/-- Spec wording for the search contract: `t` contains `s` as a
case-insensitive substring. -/
def containsCI : List Char → List Char → Bool
  | s, [] => startsWithCI s []
  | s, t@(_ :: ts) => startsWithCI s t || containsCI s ts

/-- SQL `LIKE`/`ILIKE` pattern matching, case-insensitive: `%` matches any
character sequence, `_` matches any single character, any other pattern
character matches one text character up to case. -/
def likeMatch : List Char → List Char → Bool
  | [], t => t.isEmpty
  | p :: ps, t =>
    if p = '%' then
      (List.range (t.length + 1)).any (fun n => likeMatch ps (t.drop n))
    else
      match t with
      | [] => false
      | c :: ts =>
        if p = '_' then likeMatch ps ts
        else (p.toLower == c.toLower) && likeMatch ps ts

/-- The pattern `"%" + search + "%"` built by the search handler. -/
def mkPattern (s : List Char) : List Char := '%' :: (s ++ ['%'])

/-- The search term holds no `LIKE` wildcard and no escape character. -/
def noWild (s : List Char) : Prop := ∀ c ∈ s, c ≠ '%' ∧ c ≠ '_' ∧ c ≠ '\\'

instance (s : List Char) : Decidable (noWild s) := by
  unfold noWild
  infer_instance

theorem likeMatch_nil (t : List Char) : likeMatch [] t = t.isEmpty := rfl

theorem likeMatch_cons (p : Char) (ps t : List Char) :
    likeMatch (p :: ps) t =
      if p = '%' then (List.range (t.length + 1)).any (fun n => likeMatch ps (t.drop n))
      else match t with
        | [] => false
        | c :: ts => if p = '_' then likeMatch ps ts
                     else (p.toLower == c.toLower) && likeMatch ps ts := rfl

theorem likeMatch_single_percent (t : List Char) : likeMatch ['%'] t = true := by
  rw [likeMatch_cons, if_pos rfl, List.any_eq_true]
  refine ⟨t.length, ?_, ?_⟩
  · rw [List.mem_range]
    omega
  · rw [List.drop_length]
    rfl

theorem likeMatch_plain (s : List Char) (h : noWild s) :
    ∀ t, likeMatch (s ++ ['%']) t = startsWithCI s t := by
  induction s with
  | nil =>
    intro t
    rw [List.nil_append, likeMatch_single_percent t]
    rfl
  | cons a s' ih =>
    intro t
    obtain ⟨hp, hu, -⟩ := h a (List.mem_cons_self a s')
    have h' : noWild s' := fun c hc => h c (List.mem_cons_of_mem a hc)
    cases t with
    | nil =>
      rw [List.cons_append, likeMatch_cons, if_neg hp]
      rfl
    | cons c ts =>
      rw [List.cons_append, likeMatch_cons, if_neg hp]
      show (if a = '_' then likeMatch (s' ++ ['%']) ts
            else (a.toLower == c.toLower) && likeMatch (s' ++ ['%']) ts)
          = startsWithCI (a :: s') (c :: ts)
      rw [if_neg hu, ih h' ts]
      rfl

theorem containsCI_iff (s t : List Char) :
    containsCI s t = true ↔ ∃ n, startsWithCI s (t.drop n) = true := by
  induction t with
  | nil =>
    constructor
    · intro h
      exact ⟨0, h⟩
    · rintro ⟨n, hn⟩
      rw [List.drop_nil] at hn
      exact hn
  | cons c ts ih =>
    show (startsWithCI s (c :: ts) || containsCI s ts) = true ↔ _
    rw [Bool.or_eq_true, ih]
    constructor
    · rintro (h | ⟨n, hn⟩)
      · exact ⟨0, h⟩
      · exact ⟨n + 1, hn⟩
    · rintro ⟨n, hn⟩
      cases n with
      | zero => exact Or.inl hn
      | succ n => exact Or.inr ⟨n, hn⟩

/-- On wildcard-free search terms the handler's `ILIKE` filter coincides
with case-insensitive substring containment. -/
theorem likeMatch_mkPattern (s t : List Char) (h : noWild s) :
    likeMatch (mkPattern s) t = containsCI s t := by
  have hpct : likeMatch (mkPattern s) t
      = (List.range (t.length + 1)).any (fun n => likeMatch (s ++ ['%']) (t.drop n)) := by
    rw [mkPattern, likeMatch_cons, if_pos rfl]
  rw [Bool.eq_iff_iff, hpct, List.any_eq_true, containsCI_iff]
  constructor
  · rintro ⟨n, -, hn⟩
    rw [likeMatch_plain s h] at hn
    exact ⟨n, hn⟩
  · rintro ⟨n, hn⟩
    have hdm : t.drop (min n t.length) = t.drop n := by
      rcases Nat.le_total n t.length with hle | hle
      · rw [Nat.min_eq_left hle]
      · rw [Nat.min_eq_right hle, List.drop_eq_nil_of_le hle,
          List.drop_eq_nil_of_le (Nat.le_refl _)]
    refine ⟨min n t.length, ?_, ?_⟩
    · rw [List.mem_range]
      omega
    · rw [likeMatch_plain s h, hdm]
      exact hn

/-- The JSON body of a successful `POST /questions/search` response. -/
structure SearchResp where
  questions : List FormattedQuestion
  total_questions : List FormattedQuestion
  current_category : Int
  current_question : FormattedQuestion
deriving DecidableEq, Repr

/-- `search_questions` (app.py lines 155-174): a missing `searchTerm`
raises on `"%" + None` inside the try block and aborts with 400; otherwise
the store is filtered with `ILIKE '%term%'`; indexing the first match of
an empty result raises, aborting with 400; on success the response carries
the matches, the full ordered question list under `total_questions`, and
the first match with its category. -/
def search_questions (db : List Question) (term : Option (List Char)) : Resp SearchResp :=
  match term with
  | none => .err 400
  | some s =>
    match (db.filter (fun q => likeMatch (mkPattern s) q.question)).map Question.format with
    | [] => .err 400
    | m :: ms => .ok ⟨m :: ms, (orderById db).map Question.format, m.category, m⟩

/-- The JSON body of a successful `GET /categories/{id}/questions` response. -/
structure CategoryResp where
  questions : List FormattedQuestion
  total_questions : List FormattedQuestion
  current_category : Int
deriving DecidableEq, Repr

/-- `get_by_category` (app.py lines 180-197): filter the store by the
category id from the route; indexing the first match of an empty result
raises, aborting with 400; on success the response carries the matches,
the full ordered question list under `total_questions`, and the first
match's category. -/
def get_by_category (db : List Question) (category_id : Nat) : Resp CategoryResp :=
  match (db.filter (fun q => q.category == (category_id : Int))).map Question.format with
  | [] => .err 400
  | m :: ms => .ok ⟨m :: ms, (orderById db).map Question.format, m.category⟩

theorem search_questions_some (db : List Question) (s : List Char) :
    search_questions db (some s)
      = match (db.filter (fun q => likeMatch (mkPattern s) q.question)).map Question.format with
        | [] => Resp.err 400
        | m :: ms => Resp.ok ⟨m :: ms, (orderById db).map Question.format, m.category, m⟩ := rfl

theorem get_by_category_eq (db : List Question) (category_id : Nat) :
    get_by_category db category_id
      = match (db.filter (fun q => q.category == (category_id : Int))).map Question.format with
        | [] => Resp.err 400
        | m :: ms => Resp.ok ⟨m :: ms, (orderById db).map Question.format, m.category⟩ := rfl

/-- C4: a search term matching zero questions and a category id with zero
questions both end in `abort(400)` (BadRequest) — not 404 and not a
success response. -/
theorem empty_result_bad_request (db db2 : List Question) (s : List Char)
    (category_id : Nat) :
    (db.filter (fun q => likeMatch (mkPattern s) q.question) = [] →
      search_questions db (some s) = .err 400 ∧
      (search_questions db (some s)).status = 400) ∧
    (db2.filter (fun q => q.category == (category_id : Int)) = [] →
      get_by_category db2 category_id = .err 400 ∧
      (get_by_category db2 category_id).status = 400) := by
  constructor
  · intro h
    have he : search_questions db (some s) = .err 400 := by
      rw [search_questions_some, h, List.map_nil]
    exact ⟨he, by rw [he]; rfl⟩
  · intro h
    have he : get_by_category db2 category_id = .err 400 := by
      rw [get_by_category_eq, h, List.map_nil]
    exact ⟨he, by rw [he]; rfl⟩

theorem empty_result_bad_request_witness :
    search_questions [] (some ['a']) = .err 400 ∧
    (search_questions [] (some ['a'])).status = 400 :=
  (empty_result_bad_request [] [] ['a'] 5).1 rfl

/-- C5: every success response of the search and by-category endpoints
carries, under `total_questions`, the full unfiltered list of all
formatted questions (ordered by id) — not a count and not the filtered
result set. -/
theorem total_questions_full_list (db : List Question) (s : List Char)
    (category_id : Nat) (r : SearchResp) (r2 : CategoryResp) :
    (search_questions db (some s) = .ok r →
      r.total_questions = (orderById db).map Question.format) ∧
    (get_by_category db category_id = .ok r2 →
      r2.total_questions = (orderById db).map Question.format) := by
  constructor
  · intro h
    rw [search_questions_some] at h
    rcases hm : (db.filter (fun q => likeMatch (mkPattern s) q.question)).map Question.format
      with - | ⟨m, ms⟩
    · rw [hm] at h
      exact absurd h (by simp)
    · rw [hm] at h
      have h' : Resp.ok (SearchResp.mk (m :: ms) ((orderById db).map Question.format)
          m.category m) = Resp.ok r := h
      rw [← Resp.ok.inj h']
  · intro h
    rw [get_by_category_eq] at h
    rcases hm : (db.filter (fun q => q.category == (category_id : Int))).map Question.format
      with - | ⟨m, ms⟩
    · rw [hm] at h
      exact absurd h (by simp)
    · rw [hm] at h
      have h' : Resp.ok (CategoryResp.mk (m :: ms) ((orderById db).map Question.format)
          m.category) = Resp.ok r2 := h
      rw [← Resp.ok.inj h']

theorem total_questions_full_list_witness :
    (SearchResp.mk [(mkQ 1).format] [(mkQ 1).format] 1 (mkQ 1).format).total_questions
      = (orderById [mkQ 1]).map Question.format :=
  (total_questions_full_list [mkQ 1] ['q'] 1
    ⟨[(mkQ 1).format], [(mkQ 1).format], 1, (mkQ 1).format⟩
    ⟨[(mkQ 1).format], [(mkQ 1).format], 1⟩).1 (by decide)

/-- C6 (amended): for every search term S free of the SQL wildcard and
escape characters `%`, `_`, `\`, a successful search returns exactly the
questions whose text contains S as a case-insensitive substring, with
`current_question` the first match in storage order and
`current_category` that match's category.  (For terms containing a
wildcard the claim fails, see the counterexample.) -/
theorem search_substring_spec (db : List Question) (s : List Char) (r : SearchResp)
    (hw : noWild s) (h : search_questions db (some s) = .ok r) :
    r.questions = (db.filter (fun q => containsCI s q.question)).map Question.format ∧
    r.questions.head? = some r.current_question ∧
    r.current_category = r.current_question.category := by
  have hfilter : db.filter (fun q => likeMatch (mkPattern s) q.question)
      = db.filter (fun q => containsCI s q.question) :=
    List.filter_congr (fun q _ => likeMatch_mkPattern s q.question hw)
  rw [search_questions_some, hfilter] at h
  rcases hm : (db.filter (fun q => containsCI s q.question)).map Question.format
    with - | ⟨m, ms⟩
  · rw [hm] at h
    exact absurd h (by simp)
  · rw [hm] at h
    have h' : Resp.ok (SearchResp.mk (m :: ms) ((orderById db).map Question.format)
        m.category m) = Resp.ok r := h
    rw [← Resp.ok.inj h']
    exact ⟨hm.symm, rfl, rfl⟩

theorem search_substring_spec_witness :
    noWild ['q'] ∧
    ((SearchResp.mk [(mkQ 1).format] [(mkQ 1).format] 1 (mkQ 1).format).questions
        = ([mkQ 1].filter (fun q => containsCI ['q'] q.question)).map Question.format ∧
     (SearchResp.mk [(mkQ 1).format] [(mkQ 1).format] 1 (mkQ 1).format).questions.head?
        = some (SearchResp.mk [(mkQ 1).format] [(mkQ 1).format] 1 (mkQ 1).format).current_question ∧
     (SearchResp.mk [(mkQ 1).format] [(mkQ 1).format] 1 (mkQ 1).format).current_category
        = (SearchResp.mk [(mkQ 1).format] [(mkQ 1).format] 1 (mkQ 1).format).current_question.category) :=
  ⟨by decide, search_substring_spec [mkQ 1] ['q']
    ⟨[(mkQ 1).format], [(mkQ 1).format], 1, (mkQ 1).format⟩ (by decide) (by decide)⟩

/-- C6 counterexample: the search term `"%"` is a `LIKE` wildcard; the
handler then returns every question, here one whose text `"q"` does not
contain `"%"` as a substring at all. -/
theorem search_wildcard_counterexample :
    search_questions [mkQ 1] (some ['%'])
      = .ok ⟨[(mkQ 1).format], [(mkQ 1).format], 1, (mkQ 1).format⟩ ∧
    containsCI ['%'] (mkQ 1).question = false :=
  ⟨by decide, by decide⟩

/-- The candidate set of the quiz draw (app.py lines 211-214): all
questions whose id is not among `previous_questions`, restricted to the
requested category unless the category is 0. -/
def quizCandidates (db : List Question) (prev : List Nat) (cat : Int) : List Question :=
  if cat = 0 then db.filter (fun q => decide (q.id ∉ prev))
  else db.filter (fun q => decide (q.category = cat ∧ q.id ∉ prev))

/-- The outcome of `POST /quizzes`: a drawn question with the echoed
`previousQuestions`, the `{success: false}` body, or an `abort`. -/
inductive QuizResult where
  | next (question : FormattedQuestion) (previousQuestions : List Nat)
  | done
  | err (code : Nat)
deriving DecidableEq, Repr

/-- The HTTP status of a quiz outcome: both response bodies are served with
200, only `abort` produces an error status. -/
def QuizResult.status : QuizResult → Nat
  | .err c => c
  | _ => 200

/-- `get_next_question` (app.py lines 205-231): a malformed body raises
inside the try block and aborts with 400; otherwise one candidate is drawn
by `ORDER BY random() LIMIT 1`, modelled as indexing the candidate list at
`r % n` for an arbitrary seed `r : Nat` (uniform `r` gives the uniform
draw); with no candidate left the handler returns `{success: false}` as a
plain 200 response (`.done`). -/
def get_next_question (db : List Question) (body : Option (List Nat × Int)) (r : Nat) :
    QuizResult :=
  match body with
  | none => .err 400
  | some (prev, cat) =>
    let cands := quizCandidates db prev cat
    match cands[r % cands.length]? with
    | some q => .next q.format prev
    | none => .done

theorem get_next_question_some (db : List Question) (prev : List Nat) (cat : Int)
    (r : Nat) :
    get_next_question db (some (prev, cat)) r
      = match (quizCandidates db prev cat)[r % (quizCandidates db prev cat).length]? with
        | some q => .next q.format prev
        | none => .done := rfl

/-- C9: when every question is excluded by `previous_questions` or the
category filter, `POST /quizzes` answers `{success: false}` with HTTP 200,
not an error status. -/
theorem quiz_exhausted_returns_success_false (db : List Question) (prev : List Nat)
    (cat : Int) (r : Nat) (h : quizCandidates db prev cat = []) :
    get_next_question db (some (prev, cat)) r = .done ∧
    (get_next_question db (some (prev, cat)) r).status = 200 := by
  have he : get_next_question db (some (prev, cat)) r = .done := by
    rw [get_next_question_some, h]
    simp
  exact ⟨he, by rw [he]; rfl⟩

theorem quiz_exhausted_returns_success_false_witness :
    get_next_question [mkQ 1] (some ([1], 0)) 0 = .done ∧
    (get_next_question [mkQ 1] (some ([1], 0)) 0).status = 200 :=
  quiz_exhausted_returns_success_false [mkQ 1] [1] 0 0 (by decide)

theorem format_injective {p q : Question} (h : p.format = q.format) : p = q := by
  cases p
  cases q
  simp only [Question.format, FormattedQuestion.mk.injEq] at h
  simp only [Question.mk.injEq]
  exact h

theorem mem_quizCandidates {db : List Question} {prev : List Nat} {cat : Int}
    {q : Question} :
    q ∈ quizCandidates db prev cat ↔
      q ∈ db ∧ q.id ∉ prev ∧ (cat ≠ 0 → q.category = cat) := by
  by_cases hc : cat = 0
  · simp [quizCandidates, hc, List.mem_filter]
  · simp [quizCandidates, hc, List.mem_filter]
    tauto

theorem nodup_quizCandidates {db : List Question}
    (hids : (db.map Question.id).Nodup) (prev : List Nat) (cat : Int) :
    (quizCandidates db prev cat).Nodup := by
  have hdb : db.Nodup := List.Nodup.of_map _ hids
  unfold quizCandidates
  by_cases hc : cat = 0
  · rw [if_pos hc]
    exact hdb.filter _
  · rw [if_neg hc]
    exact hdb.filter _

theorem quiz_draw_next {db : List Question} {prev : List Nat} {cat : Int} {r : Nat}
    {f : FormattedQuestion} {pr : List Nat}
    (h : get_next_question db (some (prev, cat)) r = .next f pr) :
    ∃ p, (quizCandidates db prev cat)[r % (quizCandidates db prev cat).length]? = some p ∧
      f = p.format ∧ pr = prev := by
  rw [get_next_question_some] at h
  rcases hm : (quizCandidates db prev cat)[r % (quizCandidates db prev cat).length]?
    with - | p
  · rw [hm] at h
    exact absurd h (by simp)
  · rw [hm] at h
    have h' : QuizResult.next p.format prev = QuizResult.next f pr := h
    rw [QuizResult.next.injEq] at h'
    exact ⟨p, rfl, h'.1.symm, h'.2.symm⟩

theorem quiz_draw_of_ne_nil {db : List Question} {prev : List Nat} {cat : Int} (r : Nat)
    (hne : quizCandidates db prev cat ≠ []) :
    ∃ p, p ∈ quizCandidates db prev cat ∧
      get_next_question db (some (prev, cat)) r = .next p.format prev := by
  have hn : 0 < (quizCandidates db prev cat).length := List.length_pos.2 hne
  have hlt : r % (quizCandidates db prev cat).length < (quizCandidates db prev cat).length :=
    Nat.mod_lt _ hn
  have hsome : (quizCandidates db prev cat)[r % (quizCandidates db prev cat).length]?
      = some (quizCandidates db prev cat)[r % (quizCandidates db prev cat).length] :=
    List.getElem?_eq_getElem hlt
  refine ⟨(quizCandidates db prev cat)[r % (quizCandidates db prev cat).length],
    List.getElem?_mem hsome, ?_⟩
  rw [get_next_question_some, hsome]

/-- C1: the quiz draw, with `ORDER BY random() LIMIT 1` modelled as
indexing the candidate list at `r % n` for a seed `r` (uniform over seeds
`0 ≤ r < n` this is the uniform draw): every returned question lies in the
candidate set — its id is outside `previous_questions` and, unless the
requested category is 0, its category matches —; every candidate is
returned for exactly one seed below the candidate count (uniformity as a
bijection between seeds and candidates, given primary-key-distinct ids);
and after adding the returned id to `previous_questions` a repeated
request never returns the same id, and still succeeds while any
alternative remains. -/
theorem quiz_selection_uniform (db : List Question) (prev : List Nat) (cat : Int)
    (r r₁ r₂ s : Nat) (f f' g : FormattedQuestion) (q : Question)
    (hids : (db.map Question.id).Nodup) :
    (get_next_question db (some (prev, cat)) r = .next f prev →
      f.id ∉ prev ∧ (cat ≠ 0 → f.category = cat) ∧
      ∃ p, p ∈ quizCandidates db prev cat ∧ f = p.format) ∧
    (q ∈ quizCandidates db prev cat →
      ∃ i, i < (quizCandidates db prev cat).length ∧
        get_next_question db (some (prev, cat)) i = .next q.format prev) ∧
    (r₁ < (quizCandidates db prev cat).length →
     r₂ < (quizCandidates db prev cat).length →
     get_next_question db (some (prev, cat)) r₁ = .next g prev →
     get_next_question db (some (prev, cat)) r₂ = .next g prev →
     r₁ = r₂) ∧
    (get_next_question db (some (prev, cat)) r = .next f prev →
     get_next_question db (some (prev ++ [f.id], cat)) s = .next f' (prev ++ [f.id]) →
     f'.id ≠ f.id) ∧
    (quizCandidates db (prev ++ [f.id]) cat ≠ [] →
     ∃ f₂, get_next_question db (some (prev ++ [f.id], cat)) s
       = .next f₂ (prev ++ [f.id])) := by
  refine ⟨?_, ?_, ?_, ?_, ?_⟩
  · intro h
    obtain ⟨p, hp, hf, -⟩ := quiz_draw_next h
    have hmem0 := List.getElem?_mem hp
    have hmem := mem_quizCandidates.1 hmem0
    subst hf
    exact ⟨hmem.2.1, fun hc => hmem.2.2 hc, p, hmem0, rfl⟩
  · intro hq
    obtain ⟨i, hi⟩ := List.mem_iff_getElem?.1 hq
    have hlt : i < (quizCandidates db prev cat).length := (List.getElem?_eq_some.1 hi).1
    refine ⟨i, hlt, ?_⟩
    rw [get_next_question_some, Nat.mod_eq_of_lt hlt, hi]
  · intro h1 h2 hg1 hg2
    obtain ⟨p₁, hp₁, hf₁, -⟩ := quiz_draw_next hg1
    obtain ⟨p₂, hp₂, hf₂, -⟩ := quiz_draw_next hg2
    rw [Nat.mod_eq_of_lt h1] at hp₁
    rw [Nat.mod_eq_of_lt h2] at hp₂
    have hpp : p₁ = p₂ := format_injective (hf₁.symm.trans hf₂)
    subst hpp
    exact List.getElem?_inj h1 (nodup_quizCandidates hids prev cat) (hp₁.trans hp₂.symm)
  · intro h1 h2
    obtain ⟨pq, hpq, hfq, -⟩ := quiz_draw_next h1
    obtain ⟨p', hp', hf', -⟩ := quiz_draw_next h2
    have hmem := mem_quizCandidates.1 (List.getElem?_mem hp')
    have hnotin := hmem.2.1
    intro heq
    apply hnotin
    rw [List.mem_append]
    right
    have hid : f'.id = p'.id := by
      rw [hf']
      rfl
    exact List.mem_singleton.2 (by rw [← hid, heq])
  · intro hne
    obtain ⟨p, -, hres⟩ := quiz_draw_of_ne_nil s hne
    exact ⟨p.format, hres⟩

theorem quiz_selection_uniform_witness :
    ∃ i, i < (quizCandidates [mkQ 1, mkQ 2] [] 0).length ∧
      get_next_question [mkQ 1, mkQ 2] (some ([], 0)) i = .next (mkQ 1).format [] :=
  (quiz_selection_uniform [mkQ 1, mkQ 2] [] 0 0 0 0 0 (mkQ 1).format ((mkQ 2).format)
    ((mkQ 1).format) (mkQ 1) (by decide)).2.1 (by decide)

end Trivia
